import Mathlib

/-!
Shallow embedding of `minidhcp.py`, a single-host DHCP server.

Bytes are modelled as `Nat` (on the wire every byte is in `[0,255]`).
Python byte strings and bytearrays are modelled as `List Nat`.
A Python slice `l[a:b]` is `pyslice l a b`; a slice assignment
`l[a:b] = v` (with `v` of length `b - a`, the only case the program
performs) is `setslice l a b v`.  The Python `dict` used for decoded
options is modelled as an association list with in-place overwrite
(`dictInsert`), matching `opts[option] = optdata`.
-/

set_option maxRecDepth 8000

namespace Minidhcp

/-- Uppercase hexadecimal digit for a value in `[0,15]` (digits 0-9 and
A-F), as produced by the Python format `"{:02X}"`. -/
def hexdigit (n : Nat) : Char :=
  if n % 16 < 10 then Char.ofNat (48 + n % 16) else Char.ofNat (55 + n % 16)

/-- The Python expression `"{:02X}".format(b)` for a byte value `b < 256`: two uppercase
hexadecimal digits. -/
def hex2 (n : Nat) : String :=
  String.mk [hexdigit (n / 16), hexdigit n]

/-- `readablebytes` from minidhcp.py: `"0xNull"` for an empty byte string,
otherwise `"0x"` followed by the two-digit uppercase hex of each byte. -/
def readablebytes (bytes : List Nat) : String :=
  if bytes.length = 0 then "0xNull"
  else "0x" ++ String.join (bytes.map hex2)

/-- `readablemacaddress` from minidhcp.py: `"<invalid MAC>"` unless the input
has exactly 6 bytes, otherwise the colon-separated uppercase hex form. -/
def readablemacaddress (bytes : List Nat) : String :=
  if bytes.length ≠ 6 then "<invalid MAC>"
  else String.intercalate ":" (bytes.map hex2)

/-- `buildipaddr` from minidhcp.py: a 4-byte array from four octets. -/
def buildipaddr (ip1 ip2 ip3 ip4 : Nat) : List Nat :=
  [ip1, ip2, ip3, ip4]

/-- `cookieconstant` from minidhcp.py: the DHCP magic cookie bytes. -/
def cookieconstant : List Nat :=
  buildipaddr 99 130 83 99

/-- The Python comparison `ba == 0` of a bytearray `ba` against the integer `0`:
a bytearray never equals an int in Python, so this is `false` for every input.
`buildbyteoption` in minidhcp.py uses exactly this comparison as its
empty-payload guard. -/
def bytearrayeqzero (_ : List Nat) : Bool :=
  false

/-- `buildbyteoption` from minidhcp.py.  The source guards the code-only
branch with `if (ba) == 0:`; since a Python bytearray never compares equal to
the integer `0`, that branch is unreachable and the function always emits
`[optnum, len(ba), ba...]`. -/
def buildbyteoption (optnum : Nat) (ba : List Nat) : List Nat :=
  if bytearrayeqzero ba then [optnum]
  else optnum :: ba.length :: ba

/-- `build1byteoption` from minidhcp.py: `[optnum, 1, databyte]`. -/
def build1byteoption (optnum databyte : Nat) : List Nat :=
  [optnum, 1, databyte]

/-- `build4byteoption` from minidhcp.py: `[optnum, 4, d1, d2, d3, d4]`. -/
def build4byteoption (optnum d1 d2 d3 d4 : Nat) : List Nat :=
  [optnum, 4, d1, d2, d3, d4]

/-- `buildendoption` from minidhcp.py: the single END byte `[255]`. -/
def buildendoption : List Nat :=
  [255]

/-- Python slice `l[a:b]` (for non-negative indices, clamped at the ends
clamped as in Python). -/
def pyslice (l : List Nat) (a b : Nat) : List Nat :=
  (l.drop a).take (b - a)

/-- Python slice assignment `l[a:b] = v` for `a ≤ b ≤ l.length` and
`v.length = b - a`, the only shape the program uses: the bytes at positions
`a..b-1` are replaced by `v`. -/
def setslice (l : List Nat) (a b : Nat) (v : List Nat) : List Nat :=
  l.take a ++ v ++ l.drop b

/-- Python dict assignment `opts[k] = v` on an association list whose keys are
unique: an existing entry for `k` is overwritten in place, a new key is
appended at the end. -/
def dictInsert (k : Nat) (v : List Nat) : List (Nat × List Nat) → List (Nat × List Nat)
  | [] => [(k, v)]
  | (k1, v1) :: rest => if k1 = k then (k, v) :: rest else (k1, v1) :: dictInsert k v rest

/-- Python dict lookup `opts[k]`, as an `Option`. -/
def dictLookup (k : Nat) : List (Nat × List Nat) → Option (List Nat)
  | [] => none
  | (k1, v1) :: rest => if k1 = k then some v1 else dictLookup k rest

/-- Option-decoding loop of minidhcp.py (lines 493-521), phrased on the
remaining suffix of the options buffer.  `gas` bounds the number of loop
iterations; one unit is spent per iteration, and since every iteration
consumes at least one byte a budget equal to the buffer length is always
sufficient (see `decodegas_gas_irrelevant`).  A PAD byte (0) is skipped, an
END byte (255) stops the scan, and any other code reads a length byte and a
payload; the scan also stops when the length byte is missing or when
`i + optlen >= numoptbytes`, i.e. when fewer than `optlen + 1` bytes follow
the length byte. -/
def decodegas : Nat → List Nat → List (Nat × List Nat) → List (Nat × List Nat)
  | 0, _, opts => opts
  | _ + 1, [], opts => opts
  | gas + 1, option :: rest, opts =>
    if option = 0 then decodegas gas rest opts
    else if option = 255 then opts
    else
      match rest with
      | [] => opts
      | optlen :: rest2 =>
        if rest2.length ≤ optlen then opts
        else decodegas gas (rest2.drop optlen) (dictInsert option (rest2.take optlen) opts)

/-- Option decoding as performed by the main loop of minidhcp.py: scan the
whole buffer starting from an empty mapping. -/
def decodeoptions (optiondata : List Nat) : List (Nat × List Nat) :=
  decodegas optiondata.length optiondata []

/-- Option decoding started on a suffix of the buffer with an already
accumulated mapping (the state of the loop part-way through). -/
def decodeoptionsFrom (bytes : List Nat) (opts : List (Nat × List Nat)) : List (Nat × List Nat) :=
  decodegas bytes.length bytes opts

/-- Ordered list of the option entries fully decoded by the loop of
minidhcp.py, in the order they are stored into the mapping. -/
def decodeentriesgas : Nat → List Nat → List (Nat × List Nat)
  | 0, _ => []
  | _ + 1, [] => []
  | gas + 1, option :: rest =>
    if option = 0 then decodeentriesgas gas rest
    else if option = 255 then []
    else
      match rest with
      | [] => []
      | optlen :: rest2 =>
        if rest2.length ≤ optlen then []
        else (option, rest2.take optlen) :: decodeentriesgas gas (rest2.drop optlen)

/-- Ordered list of the fully decoded option entries of a buffer. -/
def decodeentries (optiondata : List Nat) : List (Nat × List Nat) :=
  decodeentriesgas optiondata.length optiondata

/-- Payload of the last entry for key `k` in an ordered entry list, if any. -/
def lastVal (k : Nat) : List (Nat × List Nat) → Option (List Nat)
  | [] => none
  | (k1, v1) :: rest =>
    match lastVal k rest with
    | some v => some v
    | none => if k1 = k then some v1 else none

/-- Index-based transliteration of the option-decoding while loop of
minidhcp.py: `i` is the loop index, every byte read is an explicit indexed
access `optiondata[i]?` whose out-of-range failure propagates as `none`, and
`gas` counts the remaining evaluations of the loop condition `i < numoptbytes`
(returning `none` when the budget is exhausted).  A `some` result therefore
certifies that the loop terminated within the budget and never read outside
the buffer. -/
def decodeidx (optiondata : List Nat) : Nat → Nat → List (Nat × List Nat) →
    Option (List (Nat × List Nat))
  | 0, _, _ => none
  | gas + 1, i, opts =>
    if i < optiondata.length then
      match optiondata[i]? with
      | none => none
      | some option =>
        if option = 0 then decodeidx optiondata gas (i + 1) opts
        else if option = 255 then some opts
        else
          if optiondata.length ≤ i + 1 then some opts
          else
            match optiondata[i + 1]? with
            | none => none
            | some optlen =>
              if optiondata.length ≤ i + 2 + optlen then some opts
              else
                decodeidx optiondata gas (i + 2 + optlen)
                  (dictInsert option (pyslice optiondata (i + 2) (i + 2 + optlen)) opts)
    else some opts

/-- Reasons for which the main loop of minidhcp.py drops a received packet
without producing a reply, in the order the checks appear in the source. -/
inductive RejectReason where
  | emptyPacket
  | tooShort
  | invalidOpcode
  | unsupportedHardwareType
  | unsupportedHardwareLen
  | macMismatch
  | badCookie
  | missingMessageType
  | messageTypeNotSingleByte
  | unsupportedMessageType
deriving DecidableEq, Repr

/-- Decidable equality for `Except`, so that concrete handler runs can be
checked by `decide`. -/
instance {ε α : Type} [DecidableEq ε] [DecidableEq α] : DecidableEq (Except ε α) := fun a b =>
  match a, b with
  | .error e1, .error e2 =>
    if h : e1 = e2 then .isTrue (by rw [h]) else .isFalse (fun hh => h (Except.error.inj hh))
  | .error _, .ok _ => .isFalse (fun hh => Except.noConfusion hh)
  | .ok _, .error _ => .isFalse (fun hh => Except.noConfusion hh)
  | .ok a1, .ok a2 =>
    if h : a1 = a2 then .isTrue (by rw [h]) else .isFalse (fun hh => h (Except.ok.inj hh))

/-- Startup configuration of minidhcp.py after command-line validation:
the target MAC address in canonical uppercase colon-hex form (`-m`,
uppercased by the argument parser) and the four IP addresses already
converted to 4-byte arrays by `ip2bytearray`. -/
structure ServerConfig where
  macaddr : String
  baipbind : List Nat
  baipaddr : List Nat
  basubnet : List Nat
  bagateway : List Nat

/-- The four byte arrays of a configuration have length 4, as guaranteed by
`ip2bytearray` (which always returns a `bytearray(4)`). -/
def validconfig (cfg : ServerConfig) : Prop :=
  cfg.baipbind.length = 4 ∧ cfg.baipaddr.length = 4 ∧
    cfg.basubnet.length = 4 ∧ cfg.bagateway.length = 4

/-- Header part of the response construction of minidhcp.py (lines 542-562):
`offer = bytearray(240)` zero-filled, then opcode 2, hardware type 1, address
length 6, hops 0, the echoed transaction id and flags, the assigned IP
(`-i`), the bind IP (`-b`), the echoed client hardware address, and the magic
cookie, each written by index or slice assignment. -/
def encodeheader (cfg : ServerConfig) (transactionid flags thismacaddr : List Nat) : List Nat :=
  let offer0 := List.replicate 240 0
  let offer1 := (((offer0.set 0 2).set 1 1).set 2 6).set 3 0
  let offer2 := setslice offer1 4 8 transactionid
  let offer3 := setslice offer2 10 12 flags
  let offer4 := setslice offer3 16 20 cfg.baipaddr
  let offer5 := setslice offer4 20 24 cfg.baipbind
  let offer6 := setslice offer5 28 34 thismacaddr
  setslice offer6 236 240 cookieconstant

/-- Response construction of minidhcp.py (lines 541-579): the 240-byte
header followed by the options appended in source order.  The source selects
the message-type option with two independent `if` statements on
`messagetype` (the byte strings with single byte 1 and 3), mirrored here. -/
def buildresponse (cfg : ServerConfig) (messagetype transactionid flags thismacaddr : List Nat) :
    List Nat :=
  let offer7 := encodeheader cfg transactionid flags thismacaddr
  let offer8 := offer7 ++ (if messagetype = [1] then build1byteoption 53 2 else [])
  let offer9 := offer8 ++ (if messagetype = [3] then build1byteoption 53 5 else [])
  let offer10 := offer9 ++ buildbyteoption 1 cfg.basubnet
  let offer11 := offer10 ++ buildbyteoption 3 cfg.bagateway
  let offer12 := offer11 ++ build4byteoption 51 0 1 81 128
  let offer13 := offer12 ++ buildbyteoption 54 cfg.baipbind
  offer13 ++ buildendoption

/-- Per-packet body of the main loop of minidhcp.py (lines 411-592): the
linear validation pipeline in source order, ending either in a drop with a
reason (the source logs the reason and `continue`s to the next packet) or in
the bytes of the reply handed to the sending socket. -/
def handlepacket (cfg : ServerConfig) (packet : List Nat) : Except RejectReason (List Nat) :=
  if packet.length = 0 then .error .emptyPacket
  else if packet.length < 241 then .error .tooShort
  else if packet.getD 0 0 ≠ 1 ∧ packet.getD 0 0 ≠ 2 then .error .invalidOpcode
  else if packet.getD 1 0 ≠ 1 then .error .unsupportedHardwareType
  else if packet.getD 2 0 ≠ 6 then .error .unsupportedHardwareLen
  else if readablemacaddress (pyslice packet 28 34) ≠ cfg.macaddr then .error .macMismatch
  else if readablebytes (pyslice packet 236 240) ≠ "0x63825363" then .error .badCookie
  else
    match dictLookup 53 (decodeoptions (packet.drop 240)) with
    | none => .error .missingMessageType
    | some messagetype =>
      if messagetype.length ≠ 1 then .error .messageTypeNotSingleByte
      else if messagetype ≠ [1] ∧ messagetype ≠ [3] then .error .unsupportedMessageType
      else
        .ok (buildresponse cfg messagetype (pyslice packet 4 8) (pyslice packet 10 12)
          (pyslice packet 28 34))

/-- A received packet that reaches the response-building code of
minidhcp.py with message type `mt`: long enough, opcode 1 (a request),
Ethernet hardware type and address length, hardware address matching the
configured MAC under the uppercase-hex string comparison of the source, the
DHCP magic cookie, and option 53 decoding to `mt`. -/
def wellformedrequest (cfg : ServerConfig) (packet : List Nat) (mt : List Nat) : Prop :=
  241 ≤ packet.length ∧
    packet.getD 0 0 = 1 ∧
    packet.getD 1 0 = 1 ∧
    packet.getD 2 0 = 6 ∧
    readablemacaddress (pyslice packet 28 34) = cfg.macaddr ∧
    pyslice packet 236 240 = [99, 130, 83, 99] ∧
    dictLookup 53 (decodeoptions (packet.drop 240)) = some mt

/-- The options tail appended after the header by `buildresponse`, for a
given message type. -/
def optionstail (cfg : ServerConfig) (messagetype : List Nat) : List Nat :=
  (if messagetype = [1] then build1byteoption 53 2 else [])
    ++ ((if messagetype = [3] then build1byteoption 53 5 else [])
    ++ (buildbyteoption 1 cfg.basubnet
    ++ (buildbyteoption 3 cfg.bagateway
    ++ (build4byteoption 51 0 1 81 128
    ++ (buildbyteoption 54 cfg.baipbind
    ++ buildendoption)))))

/-- A concrete server configuration used as a test vector:
`-m AA:BB:CC:DD:EE:FF -b 192.168.2.53 -i 192.168.2.100 -s 255.255.255.0
-g 192.168.2.254`. -/
def cfg0 : ServerConfig :=
  ⟨"AA:BB:CC:DD:EE:FF", [192, 168, 2, 53], [192, 168, 2, 100], [255, 255, 255, 0],
    [192, 168, 2, 254]⟩

/-- A concrete 244-byte DISCOVER packet from the MAC configured in `cfg0`:
op 1, htype 1, hlen 6, zero transaction id and flags, client hardware
address AA:BB:CC:DD:EE:FF, the magic cookie, and options `53 01 01 ff`. -/
def pkt5 : List Nat :=
  [1, 1, 6, 0] ++ List.replicate 24 0 ++ [170, 187, 204, 221, 238, 255]
    ++ List.replicate 202 0 ++ [99, 130, 83, 99] ++ [53, 1, 1, 255]

/-- A concrete 241-byte packet with op 1, htype 1, hlen 6, an all-zero
client hardware address and an all-zero (invalid) magic cookie. -/
def pktbadcookie : List Nat :=
  [1, 1, 6] ++ List.replicate 238 0

/-- A configuration identical to `cfg0` except that the target MAC is the
all-zero address, matching the hardware address of `pktbadcookie`. -/
def cfgzeromac : ServerConfig :=
  ⟨"00:00:00:00:00:00", [192, 168, 2, 53], [192, 168, 2, 100], [255, 255, 255, 0],
    [192, 168, 2, 254]⟩

/-! Supporting lemmas: slice algebra for `pyslice` and `setslice`, and the
shape of the header and response built by the program. -/

theorem pyslice_eq_take_drop (l : List Nat) (a b : Nat) (hab : a ≤ b) :
    pyslice l a b = (l.take b).drop a := by
  rw [pyslice, List.take_drop]
  have h : a + (b - a) = b := by omega
  rw [h]

theorem length_setslice (l v : List Nat) (a b : Nat) (hab : a ≤ b) (hbl : b ≤ l.length)
    (hv : v.length = b - a) : (setslice l a b v).length = l.length := by
  simp [setslice]
  omega

theorem pyslice_take (l : List Nat) (a b c : Nat) (hab : a ≤ b) (hbc : b ≤ c) :
    pyslice (l.take c) a b = pyslice l a b := by
  rw [pyslice_eq_take_drop _ _ _ hab, pyslice_eq_take_drop _ _ _ hab, List.take_take,
    Nat.min_eq_left hbc]

theorem pyslice_append_left (l1 l2 : List Nat) (a b : Nat) (hab : a ≤ b) (hb : b ≤ l1.length) :
    pyslice (l1 ++ l2) a b = pyslice l1 a b := by
  rw [pyslice_eq_take_drop _ _ _ hab, pyslice_eq_take_drop _ _ _ hab,
    List.take_append_of_le_length hb]

theorem pyslice_setslice_before (l v : List Nat) (a b a2 b2 : Nat) (h2 : a2 ≤ b2)
    (hba : b2 ≤ a) (hal : a ≤ l.length) :
    pyslice (setslice l a b v) a2 b2 = pyslice l a2 b2 := by
  rw [setslice, List.append_assoc, pyslice_append_left _ _ _ _ h2 (by simp; omega),
    pyslice_take _ _ _ _ h2 hba]

theorem pyslice_setslice_self (l v : List Nat) (a b : Nat) (hal : a ≤ l.length)
    (hv : v.length = b - a) : pyslice (setslice l a b v) a b = v := by
  rw [setslice, List.append_assoc, pyslice, List.drop_left' (by simp; omega),
    List.take_left' hv]

theorem getElem?_setslice_before (l v : List Nat) (a b c : Nat) (hca : c < a)
    (hal : a ≤ l.length) : (setslice l a b v)[c]? = l[c]? := by
  rw [setslice, List.append_assoc, List.getElem?_append_left (by simp; omega),
    List.getElem?_take_of_lt hca]

theorem length_encodeheader (cfg : ServerConfig) (t f m : List Nat)
    (hb : cfg.baipbind.length = 4) (hi : cfg.baipaddr.length = 4)
    (ht : t.length = 4) (hf : f.length = 2) (hm : m.length = 6) :
    (encodeheader cfg t f m).length = 240 := by
  simp [encodeheader, setslice, cookieconstant, buildipaddr, ht, hf, hm, hb, hi]

theorem encodeheader_obs (cfg : ServerConfig) (t f m : List Nat)
    (hb : cfg.baipbind.length = 4) (hi : cfg.baipaddr.length = 4)
    (ht : t.length = 4) (hf : f.length = 2) (hm : m.length = 6) :
    pyslice (encodeheader cfg t f m) 4 8 = t ∧ (encodeheader cfg t f m)[0]? = some 2 := by
  simp only [encodeheader]
  set o1 : List Nat := ((((List.replicate 240 0).set 0 2).set 1 1).set 2 6).set 3 0 with ho1
  set o2 : List Nat := setslice o1 4 8 t with ho2
  set o3 : List Nat := setslice o2 10 12 f with ho3
  set o4 : List Nat := setslice o3 16 20 cfg.baipaddr with ho4
  set o5 : List Nat := setslice o4 20 24 cfg.baipbind with ho5
  set o6 : List Nat := setslice o5 28 34 m with ho6
  have l1 : o1.length = 240 := by simp [ho1]
  have l2 : o2.length = 240 := by
    rw [ho2, length_setslice _ _ _ _ (by omega) (by omega) (by omega)]; exact l1
  have l3 : o3.length = 240 := by
    rw [ho3, length_setslice _ _ _ _ (by omega) (by omega) (by omega)]; exact l2
  have l4 : o4.length = 240 := by
    rw [ho4, length_setslice _ _ _ _ (by omega) (by omega) (by omega)]; exact l3
  have l5 : o5.length = 240 := by
    rw [ho5, length_setslice _ _ _ _ (by omega) (by omega) (by omega)]; exact l4
  have l6 : o6.length = 240 := by
    rw [ho6, length_setslice _ _ _ _ (by omega) (by omega) (by omega)]; exact l5
  constructor
  · rw [pyslice_setslice_before _ _ _ _ _ _ (by omega) (by omega) (by omega),
      ho6, pyslice_setslice_before _ _ _ _ _ _ (by omega) (by omega) (by omega),
      ho5, pyslice_setslice_before _ _ _ _ _ _ (by omega) (by omega) (by omega),
      ho4, pyslice_setslice_before _ _ _ _ _ _ (by omega) (by omega) (by omega),
      ho3, pyslice_setslice_before _ _ _ _ _ _ (by omega) (by omega) (by omega),
      ho2, pyslice_setslice_self _ _ _ _ (by omega) (by omega)]
  · rw [getElem?_setslice_before _ _ _ _ _ (by omega) (by omega),
      ho6, getElem?_setslice_before _ _ _ _ _ (by omega) (by omega),
      ho5, getElem?_setslice_before _ _ _ _ _ (by omega) (by omega),
      ho4, getElem?_setslice_before _ _ _ _ _ (by omega) (by omega),
      ho3, getElem?_setslice_before _ _ _ _ _ (by omega) (by omega),
      ho2, getElem?_setslice_before _ _ _ _ _ (by omega) (by omega),
      ho1, List.getElem?_set_ne (by omega), List.getElem?_set_ne (by omega),
      List.getElem?_set_ne (by omega), List.getElem?_set_self (by simp)]

theorem buildresponse_decomp (cfg : ServerConfig) (mt t f m : List Nat) :
    buildresponse cfg mt t f m = encodeheader cfg t f m ++ optionstail cfg mt := by
  simp [buildresponse, optionstail, List.append_assoc]

/-! Theory of the option-decoding loop. -/

theorem decodegas_nil (gas : Nat) (opts : List (Nat × List Nat)) :
    decodegas gas [] opts = opts := by
  cases gas <;> rfl

theorem decodegas_gas_irrelevant (g1 : Nat) :
    ∀ (g2 : Nat) (bytes : List Nat) (opts : List (Nat × List Nat)),
      bytes.length ≤ g1 → bytes.length ≤ g2 →
      decodegas g1 bytes opts = decodegas g2 bytes opts := by
  induction g1 with
  | zero =>
    intro g2 bytes opts h1 _
    have hb : bytes = [] := List.length_eq_zero.mp (by omega)
    subst hb
    rw [decodegas_nil, decodegas_nil]
  | succ g ih =>
    intro g2 bytes opts h1 h2
    cases bytes with
    | nil => rw [decodegas_nil, decodegas_nil]
    | cons option rest =>
      cases g2 with
      | zero => simp at h2
      | succ h =>
        simp only [List.length_cons] at h1 h2
        simp only [decodegas]
        by_cases h0 : option = 0
        · simp only [h0, if_true]
          exact ih h rest opts (by omega) (by omega)
        · simp only [h0, if_false]
          by_cases h255 : option = 255
          · simp [h255]
          · simp only [h255, if_false]
            cases rest with
            | nil => rfl
            | cons optlen rest2 =>
              simp only [List.length_cons] at h1 h2
              by_cases htr : rest2.length ≤ optlen
              · simp [htr]
              · simp only [htr, if_false]
                exact ih h (rest2.drop optlen) _ (by simp; omega) (by simp; omega)

theorem decodegas_pad (gas : Nat) (rest : List Nat) (opts : List (Nat × List Nat)) :
    decodegas (gas + 1) (0 :: rest) opts = decodegas gas rest opts := by
  simp only [decodegas, if_true]

theorem decodegas_end (gas : Nat) (rest : List Nat) (opts : List (Nat × List Nat)) :
    decodegas (gas + 1) (255 :: rest) opts = opts := by
  simp only [decodegas]
  rfl

theorem decodegas_missing_len (gas option : Nat) (opts : List (Nat × List Nat))
    (h0 : option ≠ 0) (h255 : option ≠ 255) :
    decodegas (gas + 1) [option] opts = opts := by
  simp only [decodegas]
  rw [if_neg h0, if_neg h255]

theorem decodegas_truncated (gas option optlen : Nat) (rest2 : List Nat)
    (opts : List (Nat × List Nat)) (h0 : option ≠ 0) (h255 : option ≠ 255)
    (htr : rest2.length ≤ optlen) :
    decodegas (gas + 1) (option :: optlen :: rest2) opts = opts := by
  simp only [decodegas]
  rw [if_neg h0, if_neg h255, if_pos htr]

theorem decodegas_entry (gas option optlen : Nat) (rest2 : List Nat)
    (opts : List (Nat × List Nat)) (h0 : option ≠ 0) (h255 : option ≠ 255)
    (hfit : optlen < rest2.length) :
    decodegas (gas + 1) (option :: optlen :: rest2) opts
      = decodegas gas (rest2.drop optlen) (dictInsert option (rest2.take optlen) opts) := by
  simp only [decodegas]
  rw [if_neg h0, if_neg h255, if_neg (Nat.not_le.mpr hfit)]

theorem decodeoptionsFrom_entry (option optlen : Nat) (rest2 : List Nat)
    (opts : List (Nat × List Nat)) (h0 : option ≠ 0) (h255 : option ≠ 255)
    (hfit : optlen < rest2.length) :
    decodeoptionsFrom (option :: optlen :: rest2) opts
      = decodeoptionsFrom (rest2.drop optlen) (dictInsert option (rest2.take optlen) opts) := by
  rw [decodeoptionsFrom, decodeoptionsFrom]
  have h1 : (option :: optlen :: rest2).length = rest2.length + 1 + 1 := by simp
  rw [h1, decodegas_entry _ _ _ _ _ h0 h255 hfit]
  exact decodegas_gas_irrelevant _ _ _ _ (by simp; omega) (by simp)

theorem dictLookup_dictInsert (k k1 : Nat) (v : List Nat) (d : List (Nat × List Nat)) :
    dictLookup k (dictInsert k1 v d) = if k1 = k then some v else dictLookup k d := by
  induction d with
  | nil => simp [dictInsert, dictLookup]
  | cons kv rest ih =>
    obtain ⟨k2, v2⟩ := kv
    by_cases h : k2 = k1
    · subst h
      by_cases h2 : k2 = k
      · subst h2
        simp [dictInsert, dictLookup]
      · simp [dictInsert, dictLookup, h2]
    · by_cases h2 : k2 = k
      · subst h2
        have h3 : ¬k1 = k2 := fun hh => h hh.symm
        simp [dictInsert, dictLookup, h, h3]
      · simp [dictInsert, dictLookup, h, h2, ih]

theorem dictLookup_foldl (k : Nat) (es : List (Nat × List Nat)) :
    ∀ d, dictLookup k (es.foldl (fun acc kv => dictInsert kv.1 kv.2 acc) d)
      = match lastVal k es with
        | some v => some v
        | none => dictLookup k d := by
  induction es with
  | nil =>
    intro d
    simp [lastVal]
  | cons kv rest ih =>
    intro d
    obtain ⟨k1, v1⟩ := kv
    simp only [List.foldl_cons]
    rw [ih]
    simp only [lastVal]
    cases hlv : lastVal k rest with
    | some v => simp
    | none =>
      simp only
      rw [dictLookup_dictInsert]
      by_cases h : k1 = k <;> simp [h]

theorem decodeentriesgas_pad (gas : Nat) (rest : List Nat) :
    decodeentriesgas (gas + 1) (0 :: rest) = decodeentriesgas gas rest := by
  simp only [decodeentriesgas, if_true]

theorem decodeentriesgas_end (gas : Nat) (rest : List Nat) :
    decodeentriesgas (gas + 1) (255 :: rest) = [] := by
  simp only [decodeentriesgas]
  rfl

theorem decodeentriesgas_missing_len (gas option : Nat)
    (h0 : option ≠ 0) (h255 : option ≠ 255) :
    decodeentriesgas (gas + 1) [option] = [] := by
  simp only [decodeentriesgas]
  rw [if_neg h0, if_neg h255]

theorem decodeentriesgas_truncated (gas option optlen : Nat) (rest2 : List Nat)
    (h0 : option ≠ 0) (h255 : option ≠ 255) (htr : rest2.length ≤ optlen) :
    decodeentriesgas (gas + 1) (option :: optlen :: rest2) = [] := by
  simp only [decodeentriesgas]
  rw [if_neg h0, if_neg h255, if_pos htr]

theorem decodeentriesgas_entry (gas option optlen : Nat) (rest2 : List Nat)
    (h0 : option ≠ 0) (h255 : option ≠ 255) (hfit : optlen < rest2.length) :
    decodeentriesgas (gas + 1) (option :: optlen :: rest2)
      = (option, rest2.take optlen) :: decodeentriesgas gas (rest2.drop optlen) := by
  simp only [decodeentriesgas]
  rw [if_neg h0, if_neg h255, if_neg (Nat.not_le.mpr hfit)]

theorem decodegas_eq_foldl_entries (gas : Nat) :
    ∀ (bytes : List Nat) (opts : List (Nat × List Nat)),
      decodegas gas bytes opts
        = (decodeentriesgas gas bytes).foldl (fun acc kv => dictInsert kv.1 kv.2 acc) opts := by
  induction gas with
  | zero =>
    intro bytes opts
    simp [decodegas, decodeentriesgas]
  | succ g ih =>
    intro bytes opts
    cases bytes with
    | nil => simp [decodegas_nil, decodeentriesgas]
    | cons option rest =>
      by_cases h0 : option = 0
      · subst h0
        rw [decodegas_pad, decodeentriesgas_pad, ih]
      · by_cases h255 : option = 255
        · subst h255
          rw [decodegas_end, decodeentriesgas_end]
          simp
        · cases rest with
          | nil =>
            rw [decodegas_missing_len _ _ _ h0 h255, decodeentriesgas_missing_len _ _ h0 h255]
            simp
          | cons optlen rest2 =>
            by_cases htr : rest2.length ≤ optlen
            · rw [decodegas_truncated _ _ _ _ _ h0 h255 htr,
                decodeentriesgas_truncated _ _ _ _ h0 h255 htr]
              simp
            · have hfit : optlen < rest2.length := by omega
              rw [decodegas_entry _ _ _ _ _ h0 h255 hfit,
                decodeentriesgas_entry _ _ _ _ h0 h255 hfit, ih]
              simp

theorem dictLookup_decodeoptions (bytes : List Nat) (k : Nat) :
    dictLookup k (decodeoptions bytes)
      = match lastVal k (decodeentries bytes) with
        | some v => some v
        | none => none := by
  rw [decodeoptions, decodegas_eq_foldl_entries, dictLookup_foldl]
  rfl

theorem decodeoptionsFrom_pad (rest : List Nat) (opts : List (Nat × List Nat)) :
    decodeoptionsFrom (0 :: rest) opts = decodeoptionsFrom rest opts := by
  rw [decodeoptionsFrom, decodeoptionsFrom, List.length_cons, decodegas_pad]

theorem decodeoptionsFrom_end (rest : List Nat) (opts : List (Nat × List Nat)) :
    decodeoptionsFrom (255 :: rest) opts = opts := by
  rw [decodeoptionsFrom, List.length_cons, decodegas_end]

theorem decodeoptionsFrom_missing_len (option : Nat) (opts : List (Nat × List Nat))
    (h0 : option ≠ 0) (h255 : option ≠ 255) :
    decodeoptionsFrom [option] opts = opts := by
  rw [decodeoptionsFrom, List.length_singleton, decodegas_missing_len _ _ _ h0 h255]

theorem decodeoptionsFrom_truncated (option optlen : Nat) (rest2 : List Nat)
    (opts : List (Nat × List Nat)) (h0 : option ≠ 0) (h255 : option ≠ 255)
    (htr : rest2.length ≤ optlen) :
    decodeoptionsFrom (option :: optlen :: rest2) opts = opts := by
  rw [decodeoptionsFrom]
  have h1 : (option :: optlen :: rest2).length = rest2.length + 1 + 1 := by simp
  rw [h1, decodegas_truncated _ _ _ _ _ h0 h255 htr]

theorem decodeidx_spec (optiondata : List Nat) :
    ∀ (gas i : Nat) (opts : List (Nat × List Nat)), optiondata.length - i < gas →
      decodeidx optiondata gas i opts = some (decodeoptionsFrom (optiondata.drop i) opts) := by
  intro gas
  induction gas with
  | zero =>
    intro i opts h
    omega
  | succ g ih =>
    intro i opts h
    by_cases hi : i < optiondata.length
    · have hdrop : optiondata.drop i = optiondata[i] :: optiondata.drop (i + 1) :=
        List.drop_eq_getElem_cons hi
      simp only [decodeidx, if_pos hi, List.getElem?_eq_getElem hi]
      by_cases h0 : optiondata[i] = 0
      · rw [if_pos h0, ih (i + 1) opts (by omega), hdrop, h0, decodeoptionsFrom_pad]
      · rw [if_neg h0]
        by_cases h255 : optiondata[i] = 255
        · rw [if_pos h255, hdrop, h255, decodeoptionsFrom_end]
        · rw [if_neg h255]
          by_cases h1 : optiondata.length ≤ i + 1
          · have hnil : optiondata.drop (i + 1) = [] := List.drop_eq_nil_of_le h1
            rw [if_pos h1, hdrop, hnil, decodeoptionsFrom_missing_len _ _ h0 h255]
          · have hi1 : i + 1 < optiondata.length := by omega
            have hdrop2 : optiondata.drop (i + 1) = optiondata[i + 1] :: optiondata.drop (i + 2) :=
              List.drop_eq_getElem_cons hi1
            rw [if_neg h1]
            simp only [List.getElem?_eq_getElem hi1]
            by_cases h2 : optiondata.length ≤ i + 2 + optiondata[i + 1]
            · rw [if_pos h2, hdrop, hdrop2,
                decodeoptionsFrom_truncated _ _ _ _ h0 h255 (by simp; omega)]
            · rw [if_neg h2, ih (i + 2 + optiondata[i + 1]) _ (by omega), hdrop, hdrop2,
                decodeoptionsFrom_entry _ _ _ _ h0 h255 (by simp; omega)]
              rw [List.drop_drop, pyslice]
              have h3 : i + 2 + optiondata[i + 1] - (i + 2) = optiondata[i + 1] := by omega
              rw [h3]
    · rw [decodeidx, if_neg hi, List.drop_eq_nil_of_le (by omega), decodeoptionsFrom,
        decodegas_nil]

/-! Behaviour of the per-packet handler. -/

theorem handlepacket_ok_of_wellformed (cfg : ServerConfig) (packet mt : List Nat)
    (hw : wellformedrequest cfg packet mt) (hmt : mt = [1] ∨ mt = [3]) :
    handlepacket cfg packet
      = .ok (buildresponse cfg mt (pyslice packet 4 8) (pyslice packet 10 12)
          (pyslice packet 28 34)) := by
  obtain ⟨h241, hop, hht, hhl, hmac, hck, hlookup⟩ := hw
  have hcks : readablebytes (pyslice packet 236 240) = "0x63825363" := by
    rw [hck]
    rfl
  simp only [handlepacket]
  rw [if_neg (by omega), if_neg (by omega), if_neg (fun hcon => hcon.1 hop),
    if_neg (not_not.mpr hht), if_neg (not_not.mpr hhl), if_neg (not_not.mpr hmac),
    if_neg (not_not.mpr hcks), hlookup]
  rcases hmt with h | h <;> subst h <;> simp

theorem handlepacket_ok_inversion (cfg : ServerConfig) (packet r : List Nat)
    (h : handlepacket cfg packet = .ok r) :
    241 ≤ packet.length ∧ (packet.getD 0 0 = 1 ∨ packet.getD 0 0 = 2) ∧
      packet.getD 1 0 = 1 ∧ packet.getD 2 0 = 6 ∧
      readablemacaddress (pyslice packet 28 34) = cfg.macaddr ∧
      readablebytes (pyslice packet 236 240) = "0x63825363" ∧
      ∃ mt, dictLookup 53 (decodeoptions (packet.drop 240)) = some mt ∧
        (mt = [1] ∨ mt = [3]) ∧
        r = buildresponse cfg mt (pyslice packet 4 8) (pyslice packet 10 12)
              (pyslice packet 28 34) := by
  simp only [handlepacket] at h
  split_ifs at h with h1 h2 h3 h4 h5 h6 h7
  cases hlk : dictLookup 53 (decodeoptions (packet.drop 240)) with
  | none =>
    rw [hlk] at h
    cases h
  | some mt =>
    rw [hlk] at h
    simp only at h
    split_ifs at h with h8 h9
    have hr : r = buildresponse cfg mt (pyslice packet 4 8) (pyslice packet 10 12)
        (pyslice packet 28 34) := (Except.ok.inj h).symm
    have hmt : mt = [1] ∨ mt = [3] := by
      rcases not_and_or.mp h9 with h10 | h10
      · exact Or.inl (not_not.mp h10)
      · exact Or.inr (not_not.mp h10)
    exact ⟨by omega, by omega, by omega, by omega, not_not.mp h6, not_not.mp h7,
      mt, rfl, hmt, hr⟩

theorem length_optionstail (cfg : ServerConfig) (mt : List Nat) (hv : validconfig cfg)
    (hmt : mt = [1] ∨ mt = [3]) : (optionstail cfg mt).length = 28 := by
  obtain ⟨hb, hi, hs, hg⟩ := hv
  rcases hmt with h | h <;> subst h <;>
    simp [optionstail, build1byteoption, build4byteoption, buildbyteoption, bytearrayeqzero,
      buildendoption, hb, hs, hg]

theorem length_buildresponse (cfg : ServerConfig) (mt t f m : List Nat) (hv : validconfig cfg)
    (hmt : mt = [1] ∨ mt = [3]) (ht : t.length = 4) (hf : f.length = 2) (hm : m.length = 6) :
    (buildresponse cfg mt t f m).length = 268 := by
  obtain ⟨hb, hi, hs, hg⟩ := hv
  rw [buildresponse_decomp, List.length_append,
    length_encodeheader cfg t f m hb hi ht hf hm, length_optionstail cfg mt ⟨hb, hi, hs, hg⟩ hmt]

theorem pyslice_set_of_le (l : List Nat) (k b a v : Nat) (hab : a ≤ b) (hbk : b ≤ k) :
    pyslice (l.set k v) a b = pyslice l a b := by
  rw [pyslice_eq_take_drop _ _ _ hab, pyslice_eq_take_drop _ _ _ hab, List.set_take,
    List.set_eq_of_length_le (by simp; omega)]

theorem optionstail_offer (cfg : ServerConfig) :
    optionstail cfg [1]
      = 53 :: 1 :: 2 :: (buildbyteoption 1 cfg.basubnet ++ (buildbyteoption 3 cfg.bagateway
          ++ (build4byteoption 51 0 1 81 128 ++ (buildbyteoption 54 cfg.baipbind
          ++ buildendoption)))) := by
  simp [optionstail, build1byteoption]

theorem optionstail_ack (cfg : ServerConfig) :
    optionstail cfg [3]
      = 53 :: 1 :: 5 :: (buildbyteoption 1 cfg.basubnet ++ (buildbyteoption 3 cfg.bagateway
          ++ (build4byteoption 51 0 1 81 128 ++ (buildbyteoption 54 cfg.baipbind
          ++ buildendoption)))) := by
  simp [optionstail, build1byteoption]

/-! Claims. -/

/-- C1: the claim asserts that an option whose payload ends exactly at the
final byte of the options buffer is still decoded.  It is false: the source
breaks out of the loop when `(i + optlen) >= numoptbytes`, so the option
`53` with length `1` and payload `[7]` filling the buffer `[53, 1, 7]`
exactly is dropped and the decoded mapping is empty. -/
theorem C1_counterexample :
    decodeoptions [53, 1, 7] = [] ∧ dictLookup 53 (decodeoptions [53, 1, 7]) = none := by
  decide

/-- C1 (amended): a non-PAD, non-END option at the head of the buffer is
decoded (its code mapped to its payload, the scan continuing after it)
exactly when at least one byte follows its payload; when the length byte is
missing, or when the payload would reach or run past the final byte of the
buffer — including the case where it ends exactly at the final byte —
decoding stops and returns everything decoded so far. -/
theorem C1_amended (code optlen : Nat) (rest : List Nat)
    (h0 : code ≠ 0) (h255 : code ≠ 255) :
    (optlen < rest.length →
      decodeoptions (code :: optlen :: rest)
        = decodeoptionsFrom (rest.drop optlen) [(code, rest.take optlen)])
    ∧ (rest.length ≤ optlen → decodeoptions (code :: optlen :: rest) = [])
    ∧ decodeoptions [code] = [] := by
  refine ⟨fun hfit => ?_, fun htr => ?_, ?_⟩
  · have he : decodeoptions (code :: optlen :: rest)
        = decodeoptionsFrom (code :: optlen :: rest) [] := rfl
    rw [he, decodeoptionsFrom_entry _ _ _ _ h0 h255 hfit]
    rfl
  · have he : decodeoptions (code :: optlen :: rest)
        = decodeoptionsFrom (code :: optlen :: rest) [] := rfl
    rw [he, decodeoptionsFrom_truncated _ _ _ _ h0 h255 htr]
  · have he : decodeoptions [code] = decodeoptionsFrom [code] [] := rfl
    rw [he, decodeoptionsFrom_missing_len _ _ h0 h255]

/-- Witness for C1 (amended) at a concrete input: with one byte after the
payload the option is decoded, and with the payload ending exactly at the
final byte it is not. -/
theorem C1_witness :
    decodeoptions [53, 1, 7, 255] = decodeoptionsFrom [255] [(53, [7])]
      ∧ decodeoptions [53, 1, 9] = [] :=
  ⟨(C1_amended 53 1 [7, 255] (by decide) (by decide)).1 (by decide),
    (C1_amended 53 1 [9] (by decide) (by decide)).2.1 (by decide)⟩

/-- C2: the claim asserts that the cookie check precedes the MAC check, so a
packet with a bad cookie is rejected for the cookie regardless of its MAC.
It is false: the source compares the MAC first (line 474) and checks the
cookie afterwards (line 481), so `pktbadcookie` — which passes the length,
opcode, hardware-type and hardware-length checks, has an invalid all-zero
cookie, and a hardware address not matching `cfg0` — is rejected for the MAC
mismatch, not for the bad cookie. -/
theorem C2_counterexample :
    pktbadcookie.length = 241 ∧ pktbadcookie.getD 0 0 = 1 ∧ pktbadcookie.getD 1 0 = 1
      ∧ pktbadcookie.getD 2 0 = 6
      ∧ readablebytes (pyslice pktbadcookie 236 240) ≠ "0x63825363"
      ∧ handlepacket cfg0 pktbadcookie = .error .macMismatch
      ∧ handlepacket cfg0 pktbadcookie ≠ .error .badCookie := by
  decide

/-- C2 (amended): for every packet passing the length, opcode, hardware-type
and hardware-length checks and carrying an invalid magic cookie, the packet
is rejected for the bad cookie only when its client hardware address matches
the configured MAC; the MAC comparison precedes the cookie validation, so
when the MAC does not match the packet is rejected for the MAC mismatch and
the cookie is never reached. -/
theorem C2_amended (cfg : ServerConfig) (packet : List Nat)
    (hlen : 241 ≤ packet.length)
    (hop : packet.getD 0 0 = 1 ∨ packet.getD 0 0 = 2)
    (hht : packet.getD 1 0 = 1) (hhl : packet.getD 2 0 = 6)
    (hcookie : readablebytes (pyslice packet 236 240) ≠ "0x63825363") :
    (readablemacaddress (pyslice packet 28 34) = cfg.macaddr →
      handlepacket cfg packet = .error .badCookie)
    ∧ (readablemacaddress (pyslice packet 28 34) ≠ cfg.macaddr →
      handlepacket cfg packet = .error .macMismatch) := by
  have hopneg : ¬(packet.getD 0 0 ≠ 1 ∧ packet.getD 0 0 ≠ 2) :=
    fun hcon => hop.elim (fun h1 => hcon.1 h1) (fun h2 => hcon.2 h2)
  constructor
  · intro hmac
    simp only [handlepacket]
    rw [if_neg (by omega), if_neg (by omega), if_neg hopneg, if_neg (not_not.mpr hht),
      if_neg (not_not.mpr hhl), if_neg (not_not.mpr hmac), if_pos hcookie]
  · intro hmac
    simp only [handlepacket]
    rw [if_neg (by omega), if_neg (by omega), if_neg hopneg, if_neg (not_not.mpr hht),
      if_neg (not_not.mpr hhl), if_pos hmac]

/-- Witness for C2 (amended): a packet whose all-zero hardware address
matches the configured MAC and whose cookie is invalid is rejected for the
bad cookie. -/
theorem C2_witness : handlepacket cfgzeromac pktbadcookie = .error .badCookie :=
  (C2_amended cfgzeromac pktbadcookie (by decide) (Or.inl (by decide)) (by decide) (by decide)
    (by decide)).1 (by decide)

/-- C3: the claim (and the spec) say that encoding an option with an empty
payload produces the single byte `[code]` alone.  The source intends this in
its first branch, but guards it with `if (ba) == 0:`, a comparison of a
bytearray against the integer `0` that is false for every bytearray in
Python, so the branch is dead and an empty payload actually yields
`[code, 0]` — the code slip is evaluated here at the failing input. -/
theorem C3_codebug :
    buildbyteoption 1 [] = [1, 0] ∧ buildbyteoption 1 [] ≠ [1]
      ∧ buildbyteoption 1 [255, 255, 255, 0] = [1, 4, 255, 255, 255, 0] := by
  decide

/-- C4: decoding the encoding of any option with code in `[1, 254]` and
payload of length at most 255, followed by the END byte, recovers exactly
the mapping with the single entry `code -> payload`. -/
theorem C4_roundtrip (code : Nat) (payload : List Nat)
    (hc1 : 1 ≤ code) (hc2 : code ≤ 254) (hp : payload.length ≤ 255) :
    decodeoptions (buildbyteoption code payload ++ [255]) = [(code, payload)] := by
  have h0 : code ≠ 0 := by omega
  have h255 : code ≠ 255 := by omega
  have hb : buildbyteoption code payload = code :: payload.length :: payload := by
    simp [buildbyteoption, bytearrayeqzero]
  rw [hb, List.cons_append, List.cons_append]
  have he : decodeoptions (code :: payload.length :: (payload ++ [255]))
      = decodeoptionsFrom (code :: payload.length :: (payload ++ [255])) [] := rfl
  rw [he, decodeoptionsFrom_entry _ _ _ _ h0 h255 (by simp), List.take_left, List.drop_left,
    decodeoptionsFrom_end]
  rfl

/-- Witness for C4 at a concrete input: code 53 with payload `[1]`. -/
theorem C4_witness : decodeoptions (buildbyteoption 53 [1] ++ [255]) = [(53, [1])] :=
  C4_roundtrip 53 [1] (by decide) (by decide) (by decide)

/-- C8: the mapping produced by option decoding always associates a code
with the payload of the last fully decoded entry carrying that code
(`lastVal` walks the ordered entry list and keeps the last match), so when a
code repeats the last write wins; in particular the handler lookup of
option 53 is decided by its last fully decoded occurrence. -/
theorem C8_last_write_wins (bytes : List Nat) (k : Nat) :
    dictLookup k (decodeoptions bytes) = lastVal k (decodeentries bytes) := by
  rw [dictLookup_decodeoptions]
  cases lastVal k (decodeentries bytes) <;> rfl

/-- C9: the option-decoding loop is total and in-bounds: the index-based
transliteration of the loop, in which every byte access is checked and an
iteration budget of `length + 1` loop-condition evaluations is imposed,
terminates within that budget without any out-of-range access and returns
the decoded mapping, for every byte sequence. -/
theorem C9_decode_total (optiondata : List Nat) :
    decodeidx optiondata (optiondata.length + 1) 0 [] = some (decodeoptions optiondata) := by
  rw [decodeidx_spec optiondata (optiondata.length + 1) 0 [] (by omega), List.drop_zero]
  rfl

/-- C5: a well-formed DISCOVER (long enough, op 1, Ethernet hardware,
matching MAC, valid cookie, option 53 decoding to `[1]`) from the configured
MAC produces a reply whose opcode byte is 2, whose transaction-id bytes echo
the request, and whose options area is exactly message-type 53 = 2, subnet
mask 1 = configured subnet, router 3 = configured gateway, lease time 51 =
the bytes 0, 1, 81, 128, server identifier 54 = configured bind address,
then END, in that order. -/
theorem C5_discover (cfg : ServerConfig) (packet : List Nat)
    (hv : validconfig cfg) (hw : wellformedrequest cfg packet [1]) :
    ∃ r, handlepacket cfg packet = .ok r
      ∧ r.getD 0 0 = 2
      ∧ pyslice r 4 8 = pyslice packet 4 8
      ∧ r.drop 240 = [53, 1, 2] ++ (1 :: 4 :: cfg.basubnet) ++ (3 :: 4 :: cfg.bagateway)
          ++ [51, 4, 0, 1, 81, 128] ++ (54 :: 4 :: cfg.baipbind) ++ [255] := by
  obtain ⟨hb, hi, hs, hg⟩ := hv
  have h241 : 241 ≤ packet.length := hw.1
  have ht : (pyslice packet 4 8).length = 4 := by simp [pyslice]; omega
  have hf : (pyslice packet 10 12).length = 2 := by simp [pyslice]; omega
  have hm : (pyslice packet 28 34).length = 6 := by simp [pyslice]; omega
  have hok := handlepacket_ok_of_wellformed cfg packet [1] hw (Or.inl rfl)
  have hH : (encodeheader cfg (pyslice packet 4 8) (pyslice packet 10 12)
      (pyslice packet 28 34)).length = 240 :=
    length_encodeheader cfg _ _ _ hb hi ht hf hm
  obtain ⟨hsl, hg0⟩ := encodeheader_obs cfg (pyslice packet 4 8) (pyslice packet 10 12)
    (pyslice packet 28 34) hb hi ht hf hm
  refine ⟨_, hok, ?_, ?_, ?_⟩
  · rw [buildresponse_decomp, List.getD_eq_getElem?_getD,
      List.getElem?_append_left (by omega), hg0]
    rfl
  · rw [buildresponse_decomp, pyslice_append_left _ _ _ _ (by omega) (by omega), hsl]
  · rw [buildresponse_decomp, List.drop_left' hH, optionstail_offer]
    simp [buildbyteoption, bytearrayeqzero, build4byteoption, buildendoption, hs, hg, hb]

/-- Witness for C5: the concrete DISCOVER `pkt5` under `cfg0`. -/
theorem C5_witness :
    ∃ r, handlepacket cfg0 pkt5 = .ok r ∧ r.getD 0 0 = 2 ∧ pyslice r 4 8 = pyslice pkt5 4 8
      ∧ r.drop 240 = [53, 1, 2] ++ (1 :: 4 :: cfg0.basubnet) ++ (3 :: 4 :: cfg0.bagateway)
          ++ [51, 4, 0, 1, 81, 128] ++ (54 :: 4 :: cfg0.baipbind) ++ [255] :=
  C5_discover cfg0 pkt5 ⟨rfl, rfl, rfl, rfl⟩
    ⟨by decide, by decide, by decide, by decide, by decide, by decide, by decide⟩

/-- C6: two well-formed requests from the configured MAC that are identical
except that the option-53 value byte of the first is 1 (DISCOVER) and of
the second is 3 (REQUEST) yield replies that are byte-for-byte identical
except at position 242, the message-type value byte, which is 2 in the
OFFER and 5 in the ACK. -/
theorem C6_offer_vs_ack (cfg : ServerConfig) (p1 p2 : List Nat) (k : Nat)
    (hv : validconfig cfg) (hk : 240 ≤ k) (hp2 : p2 = p1.set k 3)
    (h1 : wellformedrequest cfg p1 [1]) (h2 : wellformedrequest cfg p2 [3]) :
    ∃ r1 r2, handlepacket cfg p1 = .ok r1 ∧ handlepacket cfg p2 = .ok r2
      ∧ r1.getD 242 0 = 2 ∧ r2.getD 242 0 = 5 ∧ r2 = r1.set 242 5 := by
  obtain ⟨hb, hi, hs, hg⟩ := hv
  have h241 : 241 ≤ p1.length := h1.1
  have ht : (pyslice p1 4 8).length = 4 := by simp [pyslice]; omega
  have hf : (pyslice p1 10 12).length = 2 := by simp [pyslice]; omega
  have hm : (pyslice p1 28 34).length = 6 := by simp [pyslice]; omega
  have et : pyslice p2 4 8 = pyslice p1 4 8 := by
    rw [hp2, pyslice_set_of_le _ _ _ _ _ (by omega) (by omega)]
  have ef : pyslice p2 10 12 = pyslice p1 10 12 := by
    rw [hp2, pyslice_set_of_le _ _ _ _ _ (by omega) (by omega)]
  have em : pyslice p2 28 34 = pyslice p1 28 34 := by
    rw [hp2, pyslice_set_of_le _ _ _ _ _ (by omega) (by omega)]
  have hok1 := handlepacket_ok_of_wellformed cfg p1 [1] h1 (Or.inl rfl)
  have hok2 := handlepacket_ok_of_wellformed cfg p2 [3] h2 (Or.inr rfl)
  rw [et, ef, em] at hok2
  have hH : (encodeheader cfg (pyslice p1 4 8) (pyslice p1 10 12)
      (pyslice p1 28 34)).length = 240 :=
    length_encodeheader cfg _ _ _ hb hi ht hf hm
  refine ⟨_, _, hok1, hok2, ?_, ?_, ?_⟩
  · rw [buildresponse_decomp, List.getD_eq_getElem?_getD,
      List.getElem?_append_right (by omega), optionstail_offer, hH]
    rfl
  · rw [buildresponse_decomp, List.getD_eq_getElem?_getD,
      List.getElem?_append_right (by omega), optionstail_ack, hH]
    rfl
  · rw [buildresponse_decomp, buildresponse_decomp, optionstail_offer, optionstail_ack,
      List.set_append_right _ _ (by omega), hH]
    rfl

/-- Witness for C6: `pkt5` and the same packet with its option-53 value
byte (position 242) set to 3, under `cfg0`. -/
theorem C6_witness :
    ∃ r1 r2, handlepacket cfg0 pkt5 = .ok r1
      ∧ handlepacket cfg0 (pkt5.set 242 3) = .ok r2
      ∧ r1.getD 242 0 = 2 ∧ r2.getD 242 0 = 5 ∧ r2 = r1.set 242 5 :=
  C6_offer_vs_ack cfg0 pkt5 (pkt5.set 242 3) 242 ⟨rfl, rfl, rfl, rfl⟩ (by decide) rfl
    ⟨by decide, by decide, by decide, by decide, by decide, by decide, by decide⟩
    ⟨by decide, by decide, by decide, by decide, by decide, by decide, by decide⟩

/-- C7: a packet failing any validation step of the pipeline — zero length,
too short, bad opcode, unsupported hardware type or address length, MAC
mismatch, bad cookie, option 53 absent, mis-sized, or carrying an
unsupported value — produces no reply: the handler, a total function
returning to the caller for the next packet, yields a reject reason and no
bytes. -/
theorem C7_rejected_no_reply (cfg : ServerConfig) (packet : List Nat)
    (hbad : packet.length = 0 ∨ packet.length < 241
      ∨ (packet.getD 0 0 ≠ 1 ∧ packet.getD 0 0 ≠ 2)
      ∨ packet.getD 1 0 ≠ 1
      ∨ packet.getD 2 0 ≠ 6
      ∨ readablemacaddress (pyslice packet 28 34) ≠ cfg.macaddr
      ∨ readablebytes (pyslice packet 236 240) ≠ "0x63825363"
      ∨ dictLookup 53 (decodeoptions (packet.drop 240)) = none
      ∨ (∃ mt, dictLookup 53 (decodeoptions (packet.drop 240)) = some mt ∧ mt.length ≠ 1)
      ∨ (∃ mt, dictLookup 53 (decodeoptions (packet.drop 240)) = some mt
          ∧ mt ≠ [1] ∧ mt ≠ [3])) :
    ∃ e, handlepacket cfg packet = .error e := by
  cases hres : handlepacket cfg packet with
  | error e => exact ⟨e, rfl⟩
  | ok r =>
    exfalso
    obtain ⟨h241, hop, hht, hhl, hmac, hck, mt, hlk, hmt, -⟩ :=
      handlepacket_ok_inversion cfg packet r hres
    rcases hbad with h | h | h | h | h | h | h | h | ⟨mt2, hlk2, hlen2⟩ | ⟨mt2, hlk2, hne1, hne3⟩
    · omega
    · omega
    · rcases hop with h1 | h1
      · exact h.1 h1
      · exact h.2 h1
    · exact h hht
    · exact h hhl
    · exact h hmac
    · exact h hck
    · rw [hlk] at h
      exact Option.noConfusion h
    · rw [hlk] at hlk2
      have hmm : mt = mt2 := Option.some.inj hlk2
      rcases hmt with he | he <;> rw [← hmm, he] at hlen2 <;> exact hlen2 rfl
    · rw [hlk] at hlk2
      have hmm : mt = mt2 := Option.some.inj hlk2
      rcases hmt with he | he
      · exact hne1 (by rw [← hmm, he])
      · exact hne3 (by rw [← hmm, he])

/-- Witness for C7: the empty packet is rejected with a reason and no
reply. -/
theorem C7_witness : ∃ e, handlepacket cfg0 [] = .error e :=
  C7_rejected_no_reply cfg0 [] (Or.inl rfl)

set_option maxHeartbeats 2000000 in
/-- C10: every reply the handler produces is exactly 268 bytes long — the
240-byte header, 3 bytes of message-type option, four 6-byte options and
the END byte — independent of the contents of the request. -/
theorem C10_reply_length (cfg : ServerConfig) (packet r : List Nat)
    (hv : validconfig cfg) (h : handlepacket cfg packet = .ok r) :
    r.length = 268 := by
  obtain ⟨h241, -, -, -, -, -, mt, -, hmt, hr⟩ := handlepacket_ok_inversion cfg packet r h
  subst hr
  exact length_buildresponse cfg mt _ _ _ hv hmt (by simp [pyslice]; omega)
    (by simp [pyslice]; omega) (by simp [pyslice]; omega)

/-- Witness for C10: the concrete reply to `pkt5` under `cfg0` has 268
bytes. -/
theorem C10_witness :
    handlepacket cfg0 pkt5
        = .ok (buildresponse cfg0 [1] (pyslice pkt5 4 8) (pyslice pkt5 10 12)
            (pyslice pkt5 28 34))
      ∧ (buildresponse cfg0 [1] (pyslice pkt5 4 8) (pyslice pkt5 10 12)
          (pyslice pkt5 28 34)).length = 268 :=
  ⟨by decide, C10_reply_length cfg0 pkt5 _ ⟨rfl, rfl, rfl, rfl⟩ (by decide)⟩

end Minidhcp
